import Mathlib

/-!
Verification of the Lambda search/indexer dispatch layer (src/src/lambda.cpp and
src/src/lambda_indexer.cpp) against its natural-language specification.

The two C++ translation units are shallowly embedded below.  Filenames and
messages are embedded as `List Char` (SeqAn `CharString` is a char sequence),
exit codes as `Int`, and the runtime-to-compile-time dispatch chain
(`argConv0` .. `argConv4`) as total functions that either produce the resolved
strategy values handed to `realMain` or a configuration error.  External
collaborators that live outside the two files (option parsing, index
construction, sequence loading) are abstracted as outcome parameters; where a
claim depends on code of the repository that is not under src/ (the search
engine bodies in lambda.hpp), the definitions are modelled from the spec and
marked as such in their doc comments.

The preprocessor configuration modelled is the release build of the shown
sources: NDEBUG set, FASTBUILD unset, LAMBDA_LINGAPS_OPT unset,
LAMBDA_MICRO_STATS unset — i.e. the maximal, default code paths.
-/

/-- Characters of a string literal, the embedding of SeqAn `CharString` values. -/
def strL (s : String) : List Char := s.toList

/-- Embedding of `endsWith(str, pat)`: the last `pat.length` characters of `l`
equal `pat`. -/
def endsWithL (l p : List Char) : Bool :=
  decide (p.length ≤ l.length) && decide (l.drop (l.length - p.length) = p)


/-! ## Strategy values selected by the dispatch chain -/

/-- Program modes of `--program` (`BlastProgram` in SeqAn). -/
inductive BlastProg where
  | blastn
  | blastp
  | blastx
  | tblastn
  | tblastx
deriving DecidableEq, Repr

/-- Database index variants (`DbIndexType` in options.hpp). -/
inductive DbIndexTy where
  | suffixArray
  | biFmIndex
  | fmIndex
deriving DecidableEq, Repr

/-- Branch taken by `argConv0` on the (decompressed) output filename. -/
inductive FormatBranch where
  | m0
  | m8
  | m9
  | samBam
deriving DecidableEq, Repr

/-- Compile-time output format object passed to `argConv1`
(`BlastReport` versus `BlastTabular`). -/
inductive OutFormatTag where
  | blastReport
  | blastTabular
deriving DecidableEq, Repr

/-- The `BlastTabularSpec` selector: with or without comment lines. -/
inductive TabSpec where
  | noComments
  | comments
deriving DecidableEq, Repr

/-- Reduced alphabet selected by `argConv1`/`argConv2` (`Dna5`, `AminoAcid`,
`ReducedAminoAcid<Murphy10>`). -/
inductive RedAlphTag where
  | dna5
  | aminoAcid
  | murphy10
deriving DecidableEq, Repr

/-- Gap extension model selected by `argConv3` (`LinearGaps` / `AffineGaps`). -/
inductive ScoreExtTag where
  | linearGaps
  | affineGaps
deriving DecidableEq, Repr

/-- Index specialisation selected by `argConv4` (`IndexSa`,
`BidirectionalIndex<TFMIndexInBi>`, `TFMIndex`). -/
inductive IndexSpecTag where
  | indexSa
  | bidirectional
  | fmIndex
deriving DecidableEq, Repr

/-- Runtime options of the search binary that the dispatch layer and
`realMain` consult (`LambdaOptions` fields used in lambda.cpp). -/
structure LambdaOpts where
  output : List Char
  blastProgram : BlastProg
  alphReduction : Nat
  gapOpen : Int
  dbIndexType : DbIndexTy
  doubleIndexing : Bool
  filterPutativeAbundant : Bool
  filterPutativeDuplicates : Bool
  mergePutativeSiblings : Bool
deriving DecidableEq, Repr

/-- Configuration errors the `argConv` chain can report before any search
work; each corresponds to the `std::cerr` + `return -1` branches. -/
inductive ConfErr where
  | badOutputExtension
  | badAlphReduction
deriving DecidableEq, Repr

/-- Message of `argConv0`'s failure branch in lambda.cpp. -/
def extensionErrMsg : List Char := strL "ERROR: Cannot handle output extension.\n"

/-- Message of `argConv2`'s failure branch in lambda.cpp. -/
def alphReductionErrMsg : List Char :=
  strL "ERROR: Cannot handle the specified alphabet reduction.\n"

/-- Message of `argConv3`'s gap-open performance note in lambda.cpp. -/
def gapOpenAttentionMsg : List Char :=
  strL "ATTENTION: You have set the additional gap open cost to 0. If you run LAMBDA in this configuration regularly, you might want to rebuild it with LAMBDA_LINGAPS_OPT=1 to profit from additional optimizations.\n"

/-- Embedding of lines 161-165 of lambda.cpp: one trailing `.gz` or `.bz2`
compression suffix is removed from a copy of the output filename before the
format suffix is inspected (`.gz` checked first, then `.bz2`). -/
def stripCompression (o : List Char) : List Char :=
  if endsWithL o (strL ".gz") then o.take (o.length - 3)
  else if endsWithL o (strL ".bz2") then o.take (o.length - 4)
  else o

/-- Embedding of the suffix dispatch of `argConv0` (lambda.cpp lines 167-177):
which `argConv1` call the decompressed filename selects, `none` for the
error branch. -/
def formatBranch (output : List Char) : Option FormatBranch :=
  let o := stripCompression output
  if endsWithL o (strL ".m0") then some FormatBranch.m0
  else if endsWithL o (strL ".m8") then some FormatBranch.m8
  else if endsWithL o (strL ".m9") then some FormatBranch.m9
  else if endsWithL o (strL ".sam") || endsWithL o (strL ".bam") then some FormatBranch.samBam
  else none

/-- Format object and tabular-spec selector passed to `argConv1` on each
branch of `argConv0` (the `.sam`/`.bam` branch reuses the tabular-with-comments
instantiation, the actual SAM/BAM conversion being "handled elsewhere"). -/
def branchFormat : FormatBranch → OutFormatTag × TabSpec
  | FormatBranch.m0 => (OutFormatTag.blastReport, TabSpec.noComments)
  | FormatBranch.m8 => (OutFormatTag.blastTabular, TabSpec.noComments)
  | FormatBranch.m9 => (OutFormatTag.blastTabular, TabSpec.comments)
  | FormatBranch.samBam => (OutFormatTag.blastTabular, TabSpec.comments)

/-- Embedding of `argConv1`/`argConv2` of lambda.cpp (FASTBUILD unset): which
reduced alphabet the program mode and `--alph` level select.  The `BLASTN`
case of `argConv1` dispatches directly to `argConv3` with `Dna5()` and never
consults `options.alphReduction`; the remaining modes go through `argConv2`,
which accepts levels 0 (`AminoAcid`) and 2 (`ReducedAminoAcid<Murphy10>`) and
reports an error otherwise. -/
def lambdaRedAlph (p : BlastProg) (alphReduction : Nat) : Except ConfErr RedAlphTag :=
  match p with
  | BlastProg.blastn => Except.ok RedAlphTag.dna5
  | _ =>
    match alphReduction with
    | 0 => Except.ok RedAlphTag.aminoAcid
    | 2 => Except.ok RedAlphTag.murphy10
    | _ => Except.error ConfErr.badAlphReduction

/-- Warning lines printed by `argConv3` of lambda.cpp: with LAMBDA_LINGAPS_OPT
unset, a zero additional gap-open cost prints the performance note. -/
def gapWarnings (gapOpen : Int) : List (List Char) :=
  if gapOpen = 0 then [gapOpenAttentionMsg] else []

/-- Extension model selected by `argConv3` of lambda.cpp: with
LAMBDA_LINGAPS_OPT unset both branches continue with `AffineGaps()` (the
alternative preprocessor configuration would select `LinearGaps()` for a zero
gap-open cost). -/
def scoreExtFor (_gapOpen : Int) : ScoreExtTag :=
  ScoreExtTag.affineGaps

/-- Index specialisation selected by `argConv4` of lambda.cpp from
`options.dbIndexType`. -/
def indexSpecFor : DbIndexTy → IndexSpecTag
  | DbIndexTy.suffixArray => IndexSpecTag.indexSa
  | DbIndexTy.biFmIndex => IndexSpecTag.bidirectional
  | DbIndexTy.fmIndex => IndexSpecTag.fmIndex

/-- The strategy values with which `realMain` is finally instantiated. -/
structure ResolvedConfig where
  branch : FormatBranch
  outFormat : OutFormatTag
  tabSpec : TabSpec
  program : BlastProg
  redAlph : RedAlphTag
  scoreExt : ScoreExtTag
  indexSpec : IndexSpecTag
deriving DecidableEq, Repr

/-- Embedding of the whole `argConv0` .. `argConv4` chain of lambda.cpp: the
stderr lines it prints together with either the configuration error (exit -1)
or the resolved strategy values handed to `realMain`. -/
def resolveConfig (o : LambdaOpts) : List (List Char) × Except ConfErr ResolvedConfig :=
  match formatBranch o.output with
  | none => ([extensionErrMsg], Except.error ConfErr.badOutputExtension)
  | some br =>
    match lambdaRedAlph o.blastProgram o.alphReduction with
    | Except.error e => ([alphReductionErrMsg], Except.error e)
    | Except.ok ra =>
      (gapWarnings o.gapOpen,
       Except.ok
         { branch := br
           outFormat := (branchFormat br).1
           tabSpec := (branchFormat br).2
           program := o.blastProgram
           redAlph := ra
           scoreExt := scoreExtFor o.gapOpen
           indexSpec := indexSpecFor o.dbIndexType })

deriving instance DecidableEq for Except

/-! ## The realMain phase sequence and the per-block search loop -/

/-- Return codes of the sequential setup phases of `realMain` in lambda.cpp,
all implemented by external collaborators (holders.hpp / lambda.hpp); each
non-zero code makes `realMain` return it at once. -/
structure PhaseOutcomes where
  validateIndexOptions : Int
  checkRAM : Int
  prepareScoring : Int
  loadSubjects : Int
  loadDbIndexFromDisk : Int
  loadTaxonomy : Int
  loadQuery : Int
deriving DecidableEq, Repr

/-- The all-successful setup outcome. -/
def allPhasesOk : PhaseOutcomes :=
  { validateIndexOptions := 0, checkRAM := 0, prepareScoring := 0, loadSubjects := 0
    loadDbIndexFromDisk := 0, loadTaxonomy := 0, loadQuery := 0 }

/-- Observable milestones of `realMain`, in program order. -/
inductive RunEvent where
  | validateIndexOptionsEv
  | checkRAMEv
  | prepareScoringEv
  | loadSubjectsEv
  | loadDbIndexFromDiskEv
  | loadTaxonomyEv
  | loadQueryEv
  | writeHeaderEv
  | searchBlocksEv
  | writeFooterEv
deriving DecidableEq, Repr

/-- Return codes of the externally implemented per-block steps of the
parallel loop in `realMain` (lambda.cpp lines 439-503), plus whether the
block has any raw matches after the search (`length(localHolder.matches) > 0`,
the guard of the extension call). -/
structure BlockOutcome where
  generateSeeds : Int
  generateTrieOverSeeds : Int
  iterateMatches : Int
  hasMatches : Bool
deriving DecidableEq, Repr

/-- Stages of one iteration of the block loop. -/
inductive BStage where
  | initB
  | genSeedsB
  | genTrieB
  | searchB
  | sortB
  | extendB
deriving DecidableEq, Repr

/-- Guard of the `sortMatches` call in lambda.cpp line 476. -/
def sortEnabled (o : LambdaOpts) : Bool :=
  o.filterPutativeAbundant || o.filterPutativeDuplicates || o.mergePutativeSiblings

/-- Stages of a block after seeding: search, the optional sort, and the
extension step guarded by `length(matches) > 0`. -/
def restStages (sortOn : Bool) (b : BlockOutcome) : List BStage :=
  [BStage.searchB] ++ (if sortOn then [BStage.sortB] else []) ++
    (if b.hasMatches then [BStage.extendB] else [])

/-- Stages one iteration of the block loop executes (lambda.cpp lines
439-503): with double indexing, `generateSeeds` and `generateTrieOverSeeds`
run first and a non-zero result `continue`s to the next block; without double
indexing both stages are skipped and the search runs directly. -/
def blockStages (di : Bool) (sortOn : Bool) (b : BlockOutcome) : List BStage :=
  if di then
    if b.generateSeeds ≠ 0 then [BStage.initB, BStage.genSeedsB]
    else if b.generateTrieOverSeeds ≠ 0 then [BStage.initB, BStage.genSeedsB, BStage.genTrieB]
    else [BStage.initB, BStage.genSeedsB, BStage.genTrieB] ++ restStages sortOn b
  else BStage.initB :: restStages sortOn b

/-- Value of the loop-local variable `res` at the end of one block iteration;
a non-zero value only causes `continue`, it is never copied into `ret`. -/
def blockRes (di : Bool) (b : BlockOutcome) : Int :=
  if di ∧ b.generateSeeds ≠ 0 then b.generateSeeds
  else if di ∧ b.generateTrieOverSeeds ≠ 0 then b.generateTrieOverSeeds
  else if b.hasMatches then b.iterateMatches
  else 0

/-- Whether the iteration for block `b` aborted early (hit a `continue`). -/
def blockFailed (di : Bool) (b : BlockOutcome) : Prop :=
  blockRes di b ≠ 0

/-- Result of the embedded `realMain`: exit code, the milestones reached (in
order), and the stage trace of every block iteration of the parallel loop. -/
structure RealMainRun where
  exitCode : Int
  events : List RunEvent
  blockTraces : List (List BStage)
deriving DecidableEq, Repr

/-- Milestones of a fully successful `realMain`. -/
def allRunEvents : List RunEvent :=
  [RunEvent.validateIndexOptionsEv, RunEvent.checkRAMEv, RunEvent.prepareScoringEv,
   RunEvent.loadSubjectsEv, RunEvent.loadDbIndexFromDiskEv, RunEvent.loadTaxonomyEv,
   RunEvent.loadQueryEv, RunEvent.writeHeaderEv, RunEvent.searchBlocksEv,
   RunEvent.writeFooterEv]

/-- Embedding of `realMain` of lambda.cpp (lines 346-527): the setup phases in
program order, each returning its non-zero code at once; then the parallel
block loop, in which the per-block result `res` is local to the iteration and
only ever used for `continue`, so `ret` is still 0 when the loop ends, the
`if (ret) return ret;` after the loop does not fire, and the function reaches
`return 0` whatever the block outcomes were. -/
def realMainModel (o : LambdaOpts) (ph : PhaseOutcomes) (blocks : List BlockOutcome) :
    RealMainRun :=
  if ph.validateIndexOptions ≠ 0 then
    ⟨ph.validateIndexOptions, [RunEvent.validateIndexOptionsEv], []⟩
  else if ph.checkRAM ≠ 0 then
    ⟨ph.checkRAM, allRunEvents.take 2, []⟩
  else if ph.prepareScoring ≠ 0 then
    ⟨ph.prepareScoring, allRunEvents.take 3, []⟩
  else if ph.loadSubjects ≠ 0 then
    ⟨ph.loadSubjects, allRunEvents.take 4, []⟩
  else if ph.loadDbIndexFromDisk ≠ 0 then
    ⟨ph.loadDbIndexFromDisk, allRunEvents.take 5, []⟩
  else if ph.loadTaxonomy ≠ 0 then
    ⟨ph.loadTaxonomy, allRunEvents.take 6, []⟩
  else if ph.loadQuery ≠ 0 then
    ⟨ph.loadQuery, allRunEvents.take 7, []⟩
  else
    ⟨0, allRunEvents, blocks.map (blockStages o.doubleIndexing (sortEnabled o))⟩

/-- Embedding of the search binary after command-line parsing: the dispatch
chain followed by `realMain`.  A configuration error returns -1 before any of
the `realMain` phases (no events, no blocks). -/
def runLambda (o : LambdaOpts) (ph : PhaseOutcomes) (blocks : List BlockOutcome) :
    Int × List (List Char) × RealMainRun :=
  match resolveConfig o with
  | (log, Except.error _) => (-1, log, ⟨-1, [], []⟩)
  | (log, Except.ok _) =>
    let run := realMainModel o ph blocks
    (run.exitCode, log, run)

/-! ## Top-level exception handling of `main` (both binaries, NDEBUG build) -/

/-- What the body of the top-level `try` block can do: return a code or throw. -/
inductive BodyOutcome where
  | ret : Int → BodyOutcome
  | throwBadAlloc : BodyOutcome
  | throwStdException : List Char → BodyOutcome
deriving DecidableEq, Repr

/-- Out-of-memory message of lambda.cpp `main`. -/
def lambdaOOMMsg : List Char :=
  strL "ERROR: Lambda ran out of memory :(\n       You need to split your file into smaller segments or search against a smaller database.\n"

/-- Out-of-memory message of lambda_indexer.cpp `main`. -/
def indexerOOMMsg : List Char :=
  strL "ERROR: Lambda ran out of memory :(\n       You need to split your file into smaller segments.\n"

/-- Embedding of the `try`/`catch` of `main` in both binaries (NDEBUG build):
`argConv0` is invoked exactly once (the returned attempt count); a
`std::bad_alloc` is reported with the binary's out-of-memory message and
turns into exit code 1, any other `std::exception` is reported with its own
`what()` text and also turns into exit code 1, and a normal return passes the
code through.  The result is `(exit code, stderr lines, attempts)`. -/
def mainCatch (oomMsg : List Char) (body : BodyOutcome) : Int × List (List Char) × Nat :=
  match body with
  | BodyOutcome.ret v => (v, [], 1)
  | BodyOutcome.throwBadAlloc => (1, [oomMsg], 1)
  | BodyOutcome.throwStdException msg => (1, [msg], 1)

/-! ## The indexer binary (lambda_indexer.cpp) -/

/-- Runtime options of the indexer binary that its dispatch layer and
`realMain` consult (`LambdaIndexerOptions` fields used in lambda_indexer.cpp). -/
structure IndexerOpts where
  indexDir : List Char
  dbIndexType : DbIndexTy
  alphReduction : Nat
  geneticCode : Nat
  hasSTaxIds : Bool
  blastProgram : BlastProg
deriving DecidableEq, Repr

/-- Embedding of `argConv1` of lambda_indexer.cpp: the reduced alphabet the
indexer selects.  Unlike the search binary, the reduction level is checked for
every program mode; level 0 keeps the unreduced alphabet (`Dna5` for BLASTN,
`AminoAcid` otherwise via the `TUnred` conditional), level 2 selects
`ReducedAminoAcid<Murphy10>`, and every other level returns -1. -/
def indexerRedAlph (p : BlastProg) (alphReduction : Nat) : Except ConfErr RedAlphTag :=
  match alphReduction with
  | 0 => Except.ok (if p = BlastProg.blastn then RedAlphTag.dna5 else RedAlphTag.aminoAcid)
  | 2 => Except.ok RedAlphTag.murphy10
  | _ => Except.error ConfErr.badAlphReduction

/-- Return codes of the externally implemented phases of the indexer's
`realMain`; each non-zero code is returned at once. -/
structure IndexerPhases where
  loadSubjSeqsAndIds : Int
  mapAndDumpTaxIDs : Int
  parseAndDumpTaxTree : Int
  checkIndexSize : Int
deriving DecidableEq, Repr

/-- The all-successful indexer setup outcome. -/
def allIndexerPhasesOk : IndexerPhases :=
  { loadSubjSeqsAndIds := 0, mapAndDumpTaxIDs := 0, parseAndDumpTaxTree := 0
    checkIndexSize := 0 }

/-- Direction tag passed to `generateIndexAndDump` (`Fwd()` / `Rev()`). -/
inductive DirTag where
  | fwd
  | rev
deriving DecidableEq, Repr

/-- Index specialisation instantiated for `generateIndexAndDump`
(`IndexSa`, `TFMIndex`, or `TFMIndexInBi` — the bidirectional case creates
two plain single-direction indexes with the `TFMIndexInBi` spec). -/
inductive BuildKind where
  | saIndex
  | fmIdx
  | fmIdxInBi
deriving DecidableEq, Repr

/-- One call to `generateIndexAndDump`: the index specialisation, the
direction tag, and the sequence set the index is built over. -/
structure BuildCall where
  kind : BuildKind
  dir : DirTag
  seqs : List (List Nat)
deriving DecidableEq, Repr

/-- Decimal digits of a number, the text the indexer writes with
`std::to_string`. -/
def natStr (n : Nat) : List Char := (Nat.repr n).toList

/-- Embedding of the metadata loop of lambda_indexer.cpp (lines 272-286):
the seven `option:<key>` files written into the index directory and their
contents.  The values that come from code outside src/ are parameters: the
alphabet names returned by `_alphName`, `sizeof(SizeTypePos_)*8`, the
`indexGeneration` constant, and the numeric value of the
`static_cast<uint32_t>` of the index type enum. -/
def metadataFiles (o : IndexerOpts) (dbTypeCode : Nat)
    (alphOriginal alphTranslated alphReduced : List Char)
    (lenBits generation : Nat) : List (List Char × List Char) :=
  [ (o.indexDir ++ strL "/option:db_index_type", natStr dbTypeCode),
    (o.indexDir ++ strL "/option:alph_original", alphOriginal),
    (o.indexDir ++ strL "/option:alph_translated", alphTranslated),
    (o.indexDir ++ strL "/option:alph_reduced", alphReduced),
    (o.indexDir ++ strL "/option:genetic_code", natStr o.geneticCode),
    (o.indexDir ++ strL "/option:subj_seq_len_bits", natStr lenBits),
    (o.indexDir ++ strL "/option:generation", natStr generation) ]

/-- The `option:<key>` suffixes of the seven metadata files, in write order. -/
def metadataKeys : List (List Char) :=
  [strL "/option:db_index_type", strL "/option:alph_original",
   strL "/option:alph_translated", strL "/option:alph_reduced",
   strL "/option:genetic_code", strL "/option:subj_seq_len_bits",
   strL "/option:generation"]

/-- Result of the indexer's `realMain`: exit code, the calls to
`generateIndexAndDump` in order, the metadata files written, and whether the
translated sequences were dumped separately. -/
structure IndexerRun where
  exitCode : Int
  builds : List BuildCall
  files : List (List Char × List Char)
  dumpedTranslated : Bool
deriving DecidableEq, Repr

/-- Embedding of `realMain` of lambda_indexer.cpp (lines 179-289):
sequence/taxonomy loading with early returns, the optional dump of the
translated sequence set, the size check, then one `generateIndexAndDump` call
for the FM-index and suffix-array variants or — for `BI_FM_INDEX` — two calls
over the same `translatedSeqs`, the `Rev()` (backward) one first and the
`Fwd()` (forward) one second, and finally the metadata loop and `return 0`.
`translatedSeqs` is the output of the external `translateOrSwap`. -/
def realMainIndexer (o : IndexerOpts) (ph : IndexerPhases)
    (translatedSeqs : List (List Nat)) (dbTypeCode : Nat)
    (alphOriginal alphTranslated alphReduced : List Char)
    (lenBits generation : Nat) : IndexerRun :=
  if ph.loadSubjSeqsAndIds ≠ 0 then ⟨ph.loadSubjSeqsAndIds, [], [], false⟩
  else if o.hasSTaxIds ∧ ph.mapAndDumpTaxIDs ≠ 0 then ⟨ph.mapAndDumpTaxIDs, [], [], false⟩
  else if o.hasSTaxIds ∧ ph.parseAndDumpTaxTree ≠ 0 then ⟨ph.parseAndDumpTaxTree, [], [], false⟩
  else
    let dumped := o.alphReduction ≠ 0 ∨ o.dbIndexType ≠ DbIndexTy.suffixArray
    if ph.checkIndexSize ≠ 0 then ⟨ph.checkIndexSize, [], [], dumped⟩
    else
      let builds :=
        match o.dbIndexType with
        | DbIndexTy.fmIndex => [⟨BuildKind.fmIdx, DirTag.fwd, translatedSeqs⟩]
        | DbIndexTy.biFmIndex =>
          [⟨BuildKind.fmIdxInBi, DirTag.rev, translatedSeqs⟩,
           ⟨BuildKind.fmIdxInBi, DirTag.fwd, translatedSeqs⟩]
        | DbIndexTy.suffixArray => [⟨BuildKind.saIndex, DirTag.fwd, translatedSeqs⟩]
      ⟨0, builds,
       metadataFiles o dbTypeCode alphOriginal alphTranslated alphReduced lenBits generation,
       dumped⟩

/-- Embedding of `argConv0`/`argConv1`/`argConv2` of lambda_indexer.cpp
followed by its `realMain`: an unsupported reduction level makes the chain
return -1 before any indexing work. -/
def runIndexer (o : IndexerOpts) (ph : IndexerPhases)
    (translatedSeqs : List (List Nat)) (dbTypeCode : Nat)
    (alphOriginal alphTranslated alphReduced : List Char)
    (lenBits generation : Nat) : IndexerRun :=
  match indexerRedAlph o.blastProgram o.alphReduction with
  | Except.error _ => ⟨-1, [], [], false⟩
  | Except.ok _ =>
    realMainIndexer o ph translatedSeqs dbTypeCode alphOriginal alphTranslated
      alphReduced lenBits generation

/-! ## The two search modes (modelled from the spec)

The bodies of `generateSeeds`, `generateTrieOverSeeds` and `search` live in
lambda.hpp, which is not among the shown sources; the definitions in this
section are therefore modelled from the specification (sections 3, 4.3-4.5):
sequence sets over a working alphabet (symbols as `Nat`), seeds
`(query id, query offset, length)`, a seed trie with children keyed by next
symbol and seed back-pointers at the termini, a subject index offering
prefix-extension (`extend`) and occurrence resolution (`locate`), the
synchronized trie/index co-traversal of double-indexing mode, and the
per-seed direct index queries of the non-double-indexing mode. -/

/-- Modelled from the spec: a seed `(query id, query offset, length)`
(section 3), the anchor of one search. -/
structure Seed where
  qId : Nat
  qOff : Nat
  len : Nat
deriving DecidableEq, Repr

/-- Modelled from the spec: a raw match emitted by the search engine
(section 3): query id, subject id, begin offsets, length, and the diagonal
`subject_position - query_offset`. -/
structure MatchRec where
  qId : Nat
  sId : Nat
  qStart : Nat
  sStart : Nat
  len : Nat
  diag : Int
deriving DecidableEq, Repr

/-- A sequence set: ordered biological sequences over the working alphabet. -/
abbrev SeqSet := List (List Nat)

/-- Modelled from the spec: a state of the subject index during prefix
extension — the number of symbols consumed so far and the still-matching
occurrence candidates `(subject id, start position)`.  `extend` narrows the
candidate list monotonically, an empty list is the NoMatch state, and
`locate` reads the list off (section 4.2). -/
abbrev IdxState := Nat × List (Nat × Nat)

/-- Modelled from the spec: `extend(state, symbol)` of the subject index —
keep exactly the candidate occurrences whose next subject symbol equals the
queried symbol (section 4.2). -/
def extendSt (subj : SeqSet) (st : IdxState) (c : Nat) : IdxState :=
  (st.1 + 1, st.2.filter (fun ip => (subj.getD ip.1 [])[ip.2 + st.1]? == some c))

/-- Modelled from the spec: the initial index state, in which every position
of every subject is a candidate occurrence of the empty pattern. -/
def initState (subj : SeqSet) : IdxState :=
  (0, (List.range subj.length).flatMap
        (fun i => (List.range ((subj.getD i []).length + 1)).map (fun p => (i, p))))

/-- Modelled from the spec: `locate` plus emission — one raw match per
seed-occurrence pair, with the diagonal `subject_position - query_offset`
(section 4.5). -/
def emitMatches (st : IdxState) (s : Seed) : List MatchRec :=
  st.2.map (fun ip =>
    { qId := s.qId, sId := ip.1, qStart := s.qOff, sStart := ip.2, len := s.len,
      diag := (ip.2 : Int) - (s.qOff : Int) })

/-- Concatenation of the images of `f`, used for the per-entry emission of
the traversals below. -/
def joinMap {α β : Type} (f : α → List β) : List α → List β
  | [] => []
  | a :: l => f a ++ joinMap f l

/-- Modelled from the spec: the seed trie — a node holds the back-pointers of
the seeds terminating at it and its children keyed by next symbol
(section 4.4). -/
inductive SeedTrie where
  | node : List Seed → List (Nat × SeedTrie) → SeedTrie
deriving Repr

/-- Child of a node for symbol `c`; an absent child is the empty trie. -/
def childOf (ch : List (Nat × SeedTrie)) (c : Nat) : SeedTrie :=
  match List.lookup c ch with
  | some t => t
  | none => SeedTrie.node [] []

/-- Modelled from the spec: insertion of one seed under its symbol string;
the terminus reached through the string records the seed back-pointer
(section 4.4). -/
def insertSeed : SeedTrie → List Nat → Seed → SeedTrie
  | SeedTrie.node term ch, [], s => SeedTrie.node (s :: term) ch
  | SeedTrie.node term ch, c :: cs, s =>
      SeedTrie.node term
        ((c, insertSeed (childOf ch c) cs s) :: List.eraseP (fun q => q.1 == c) ch)

/-- Modelled from the spec: the symbol string of a seed, read from the query
sequence set. -/
def seedPat (qrys : SeqSet) (s : Seed) : List Nat :=
  ((qrys.getD s.qId []).drop s.qOff).take s.len

/-- Modelled from the spec: the trie over all seeds of a block
(section 4.4). -/
def buildTrie (qrys : SeqSet) (seeds : List Seed) : SeedTrie :=
  seeds.foldl (fun t s => insertSeed t (seedPat qrys s) s) (SeedTrie.node [] [])

/-- Modelled from the spec: the double-index co-traversal (section 4.5) —
walk trie and index state together, at every node emit one match per
seed-terminus/occurrence pair (an empty index range emits nothing), and for
every child symbol recurse with the extended index state.  The depth-first
walk is bounded by the maximum seed length, the bound the spec itself gives
for termination; branches whose index range is empty stay empty and emit
nothing, which is the output-level content of the spec's immediate pruning. -/
def walkTrie (subj : SeqSet) : Nat → SeedTrie → IdxState → List MatchRec
  | 0, _, _ => []
  | fuel+1, SeedTrie.node term ch, st =>
      joinMap (emitMatches st) term ++
      joinMap (fun p => walkTrie subj fuel p.2 (extendSt subj st p.1)) ch

/-- Modelled from the spec: a full index lookup of one pattern, by folding
`extend` over its symbols from the initial state. -/
def indexLookup (subj : SeqSet) (pat : List Nat) : IdxState :=
  pat.foldl (extendSt subj) (initState subj)

/-- Modelled from the spec: the non-double-indexing search mode — query the
index independently per seed, no shared traversal (sections 4.3, 4.5). -/
def directSearch (subj qrys : SeqSet) (seeds : List Seed) : List MatchRec :=
  joinMap (fun s => emitMatches (indexLookup subj (seedPat qrys s)) s) seeds

/-- Length of the longest seed pattern of a block. -/
def maxSeedLen (qrys : SeqSet) (seeds : List Seed) : Nat :=
  seeds.foldr (fun s m => max (seedPat qrys s).length m) 0

/-- Modelled from the spec: the double-indexing search mode — build the seed
trie and co-traverse it with the subject index (sections 4.4, 4.5). -/
def doubleIndexSearch (subj qrys : SeqSet) (seeds : List Seed) : List MatchRec :=
  walkTrie subj (maxSeedLen qrys seeds + 1) (buildTrie qrys seeds) (initState subj)

/-- Whether a pattern occurs in `seq` starting at position `q`. -/
def matchesFrom (seq : List Nat) (q : Nat) : List Nat → Bool
  | [] => true
  | c :: cs => (seq[q]? == some c) && matchesFrom seq (q + 1) cs


/-! ## Theorems: embedding lemmas -/

theorem endsWithL_eq_true {l p : List Char} :
    endsWithL l p = true ↔ p.length ≤ l.length ∧ l.drop (l.length - p.length) = p := by
  simp [endsWithL]

theorem endsWithL_append (l p : List Char) : endsWithL (l ++ p) p = true := by
  rw [endsWithL_eq_true]
  constructor
  · simp
  · rw [List.length_append, Nat.add_sub_cancel, List.drop_left]

theorem endsWithL_append_ne {l p q : List Char} (hle : q.length ≤ p.length)
    (hne : p.drop (p.length - q.length) ≠ q) : endsWithL (l ++ p) q = false := by
  rw [← Bool.not_eq_true, endsWithL_eq_true]
  rintro ⟨-, hdrop⟩
  rw [List.length_append] at hdrop
  have harith : l.length + p.length - q.length = l.length + (p.length - q.length) := by omega
  rw [harith, List.drop_append] at hdrop
  exact hne hdrop

theorem endsWithL_of_endsWithL {l p q : List Char} (h : endsWithL l p = true)
    (hle : q.length ≤ p.length) : endsWithL l q = endsWithL p q := by
  rw [endsWithL_eq_true] at h
  obtain ⟨hlen, hdrop⟩ := h
  conv_lhs => rw [← List.take_append_drop (l.length - p.length) l, hdrop]
  by_cases hq : p.drop (p.length - q.length) = q
  · have h1 : endsWithL p q = true := by
      rw [endsWithL_eq_true]; exact ⟨hle, hq⟩
    rw [h1]
    have h2 : (l.take (l.length - p.length)) ++ p = l.take (l.length - p.length) ++
        (p.take (p.length - q.length) ++ p.drop (p.length - q.length)) := by
      rw [List.take_append_drop]
    rw [h2, ← List.append_assoc, hq]
    exact endsWithL_append _ q
  · have h1 : endsWithL p q = false := by
      rw [← Bool.not_eq_true, endsWithL_eq_true]
      rintro ⟨-, hd⟩; exact hq hd
    rw [h1]
    exact endsWithL_append_ne hle hq

theorem mem_joinMap {α β : Type} {f : α → List β} {l : List α} {b : β} :
    b ∈ joinMap f l ↔ ∃ a ∈ l, b ∈ f a := by
  induction l with
  | nil => simp [joinMap]
  | cons a l ih => simp [joinMap, ih]


theorem walkTrie_emptyNode (subj : SeqSet) (f : Nat) (st : IdxState) :
    walkTrie subj f (SeedTrie.node [] []) st = [] := by
  cases f with
  | zero => rfl
  | succ f => simp [walkTrie, joinMap]

theorem childOf_eraseP_mem {ch : List (Nat × SeedTrie)} {c : Nat}
    {g : Nat × SeedTrie → List MatchRec} {m : MatchRec}
    (hg : g (c, SeedTrie.node [] []) = []) :
    m ∈ g (c, childOf ch c) ∨ m ∈ joinMap g (List.eraseP (fun q => q.1 == c) ch) ↔
      m ∈ joinMap g ch := by
  induction ch with
  | nil => simp [childOf, List.lookup, joinMap, hg]
  | cons p rest ih =>
    obtain ⟨k, t⟩ := p
    by_cases hkc : c = k
    · subst hkc
      simp [childOf, List.lookup, List.eraseP_cons, joinMap]
    · have h1 : (c == k) = false := by simp [hkc]
      have hne : k ≠ c := fun h => hkc h.symm
      have h2 : (k == c) = false := by simp [hne]
      simp only [childOf, List.lookup, h1, List.eraseP_cons, h2, joinMap, List.mem_append]
      rw [← childOf]
      constructor
      · rintro (h | h | h)
        · exact Or.inr (ih.mp (Or.inl h))
        · exact Or.inl h
        · exact Or.inr (ih.mp (Or.inr h))
      · rintro (h | h)
        · exact Or.inr (Or.inl h)
        · rcases ih.mpr h with h3 | h3
          · exact Or.inl h3
          · exact Or.inr (Or.inr h3)

theorem walkTrie_insertSeed {subj : SeqSet} (pat : List Nat) :
    ∀ (f : Nat) (t : SeedTrie) (st : IdxState) (s0 : Seed) (m : MatchRec),
      pat.length < f →
      (m ∈ walkTrie subj f (insertSeed t pat s0) st ↔
        m ∈ emitMatches (pat.foldl (extendSt subj) st) s0 ∨ m ∈ walkTrie subj f t st) := by
  induction pat with
  | nil =>
    intro f t st s0 m hf
    obtain ⟨term, ch⟩ := t
    obtain ⟨f1, rfl⟩ : ∃ f1, f = f1 + 1 := ⟨f - 1, by omega⟩
    simp [walkTrie, insertSeed, joinMap, or_assoc]
  | cons c cs ih =>
    intro f t st s0 m hf
    obtain ⟨term, ch⟩ := t
    obtain ⟨f1, rfl⟩ : ∃ f1, f = f1 + 1 := ⟨f - 1, by omega⟩
    have hcs : cs.length < f1 := by simpa using Nat.lt_of_succ_lt_succ hf
    simp only [walkTrie, insertSeed, joinMap, List.mem_append, List.foldl_cons]
    rw [ih f1 (childOf ch c) (extendSt subj st c) s0 m hcs]
    have hemp : walkTrie subj f1 (SeedTrie.node [] []) (extendSt subj st c) = [] :=
      walkTrie_emptyNode subj f1 _
    have hch := @childOf_eraseP_mem ch c
      (fun p => walkTrie subj f1 p.2 (extendSt subj st p.1)) m hemp
    constructor
    · rintro (h | (h | h) | h)
      · exact Or.inr (Or.inl h)
      · exact Or.inl h
      · exact Or.inr (Or.inr (hch.mp (Or.inl h)))
      · exact Or.inr (Or.inr (hch.mp (Or.inr h)))
    · rintro (h | h | h)
      · exact Or.inr (Or.inl (Or.inl h))
      · exact Or.inl h
      · rcases hch.mpr h with h3 | h3
        · exact Or.inr (Or.inl (Or.inr h3))
        · exact Or.inr (Or.inr h3)

theorem walkTrie_buildFold {subj qrys : SeqSet} (seeds : List Seed) :
    ∀ (t : SeedTrie) (st : IdxState) (f : Nat) (m : MatchRec),
      (∀ s ∈ seeds, (seedPat qrys s).length < f) →
      (m ∈ walkTrie subj f
          (seeds.foldl (fun t s => insertSeed t (seedPat qrys s) s) t) st ↔
        (∃ s ∈ seeds, m ∈ emitMatches ((seedPat qrys s).foldl (extendSt subj) st) s) ∨
          m ∈ walkTrie subj f t st) := by
  induction seeds with
  | nil => intro t st f m hb; simp
  | cons s1 rest ih =>
    intro t st f m hb
    rw [List.foldl_cons]
    rw [ih _ st f m (fun s hs => hb s (List.mem_cons_of_mem _ hs))]
    rw [walkTrie_insertSeed _ f t st s1 m (hb s1 (List.mem_cons_self _ _))]
    simp only [List.mem_cons, exists_eq_or_imp]
    constructor
    · rintro (h | h | h)
      · exact Or.inl (Or.inr h)
      · exact Or.inl (Or.inl h)
      · exact Or.inr h
    · rintro ((h | h) | h)
      · exact Or.inr (Or.inl h)
      · exact Or.inl h
      · exact Or.inr (Or.inr h)

theorem seedPat_length_le_maxSeedLen {qrys : SeqSet} {seeds : List Seed} {s : Seed}
    (hs : s ∈ seeds) : (seedPat qrys s).length ≤ maxSeedLen qrys seeds := by
  induction seeds with
  | nil => cases hs
  | cons s1 rest ih =>
    rw [List.mem_cons] at hs
    simp only [maxSeedLen, List.foldr_cons]
    rcases hs with rfl | hs
    · exact le_max_left _ _
    · exact le_trans (ih hs) (le_max_right _ _)

/-- The two search modes emit the same set of raw matches: membership in the
output of the trie co-traversal coincides with membership in the output of
the per-seed direct lookups. -/
theorem doubleIndexSearch_eq_directSearch (subj qrys : SeqSet) (seeds : List Seed)
    (m : MatchRec) :
    m ∈ doubleIndexSearch subj qrys seeds ↔ m ∈ directSearch subj qrys seeds := by
  unfold doubleIndexSearch directSearch buildTrie
  rw [walkTrie_buildFold seeds _ _ _ _
    (fun s hs => Nat.lt_succ_of_le (seedPat_length_le_maxSeedLen hs))]
  rw [walkTrie_emptyNode]
  simp [mem_joinMap, indexLookup]


theorem foldl_extendSt_eq_filter (subj : SeqSet) (pat : List Nat) :
    ∀ (d : Nat) (occs : List (Nat × Nat)),
      pat.foldl (extendSt subj) (d, occs) =
        (d + pat.length,
         occs.filter (fun ip => matchesFrom (subj.getD ip.1 []) (ip.2 + d) pat)) := by
  induction pat with
  | nil => intro d occs; simp [matchesFrom]
  | cons c cs ih =>
    intro d occs
    rw [List.foldl_cons]
    show cs.foldl (extendSt subj) (extendSt subj (d, occs) c) = _
    rw [show extendSt subj (d, occs) c =
      (d + 1, occs.filter (fun ip => ((subj.getD ip.1 [])[ip.2 + d]? == some c))) from rfl]
    rw [ih]
    refine congrArg₂ Prod.mk (by simp [List.length_cons]; omega) ?_
    rw [List.filter_filter]
    apply List.filter_congr
    intro ip hip
    simp only [matchesFrom, Nat.add_assoc]
    exact Bool.and_comm _ _

/-- The subject index model resolves a pattern to exactly the positions where
the pattern occurs in a subject: soundness and completeness of the
`extend`/`locate` model against plain substring matching. -/
theorem mem_indexLookup (subj : SeqSet) (pat : List Nat) (i p : Nat) :
    (i, p) ∈ (indexLookup subj pat).2 ↔
      i < subj.length ∧ p ≤ (subj.getD i []).length ∧
        matchesFrom (subj.getD i []) p pat = true := by
  unfold indexLookup initState
  rw [show ((0 : Nat),
      (List.range subj.length).flatMap
        (fun i => (List.range ((subj.getD i []).length + 1)).map (fun p => (i, p)))) =
      (((0 : Nat),
      (List.range subj.length).flatMap
        (fun i => (List.range ((subj.getD i []).length + 1)).map (fun p => (i, p)))) :
        IdxState) from rfl]
  rw [foldl_extendSt_eq_filter]
  simp only [List.mem_filter, List.mem_flatMap, List.mem_range, List.mem_map]
  constructor
  · rintro ⟨⟨j, hj, hmem⟩, hmatch⟩
    obtain ⟨q, hq, heq⟩ := hmem
    have h1 : j = i := congrArg Prod.fst heq
    have h2 : q = p := congrArg Prod.snd heq
    subst h1; subst h2
    refine ⟨hj, by omega, by simpa using hmatch⟩
  · rintro ⟨hi, hp, hmatch⟩
    exact ⟨⟨i, hi, p, by omega, rfl⟩, by simpa using hmatch⟩

/-! ## Helper lemmas about suffix selection -/

theorem endsWithL_ne_of_endsWithL {l p q : List Char} (h : endsWithL l p = true)
    (hlen : q.length = p.length) (hne : q ≠ p) : endsWithL l q = false := by
  rw [← Bool.not_eq_true, endsWithL_eq_true]
  rintro ⟨-, hq2⟩
  rw [endsWithL_eq_true] at h
  exact hne (by rw [← hq2, ← h.2, hlen])

theorem endsWithL_false_of_shorter {l p q : List Char} (h : endsWithL l p = true)
    (hqp : endsWithL q p = false) (hle : p.length ≤ q.length) : endsWithL l q = false := by
  by_contra hq
  rw [Bool.not_eq_false] at hq
  rw [endsWithL_of_endsWithL hq hle] at h
  rw [h] at hqp
  cases hqp

theorem stripCompression_no_comp {o : List Char}
    (hgz : endsWithL o (strL ".gz") = false) (hbz : endsWithL o (strL ".bz2") = false) :
    stripCompression o = o := by
  simp [stripCompression, hgz, hbz]

theorem stripCompression_gz (base : List Char) :
    stripCompression (base ++ strL ".gz") = base := by
  have h3 : (strL ".gz").length = 3 := rfl
  simp only [stripCompression, endsWithL_append, if_true]
  rw [List.length_append, h3, Nat.add_sub_cancel, List.take_left]

theorem stripCompression_bz2 (base : List Char) :
    stripCompression (base ++ strL ".bz2") = base := by
  have h4 : (strL ".bz2").length = 4 := rfl
  have hgz : endsWithL (base ++ strL ".bz2") (strL ".gz") = false :=
    endsWithL_append_ne (by decide) (by decide)
  simp only [stripCompression, hgz, Bool.false_eq_true, if_false, endsWithL_append, if_true]
  rw [List.length_append, h4, Nat.add_sub_cancel, List.take_left]

theorem formatBranch_m0 {o : List Char}
    (h : endsWithL (stripCompression o) (strL ".m0") = true) :
    formatBranch o = some FormatBranch.m0 := by
  simp [formatBranch, h]

theorem formatBranch_m8 {o : List Char}
    (h : endsWithL (stripCompression o) (strL ".m8") = true) :
    formatBranch o = some FormatBranch.m8 := by
  have h0 : endsWithL (stripCompression o) (strL ".m0") = false :=
    endsWithL_ne_of_endsWithL h rfl (by decide)
  simp [formatBranch, h, h0]

theorem formatBranch_m9 {o : List Char}
    (h : endsWithL (stripCompression o) (strL ".m9") = true) :
    formatBranch o = some FormatBranch.m9 := by
  have h0 : endsWithL (stripCompression o) (strL ".m0") = false :=
    endsWithL_ne_of_endsWithL h rfl (by decide)
  have h8 : endsWithL (stripCompression o) (strL ".m8") = false :=
    endsWithL_ne_of_endsWithL h rfl (by decide)
  simp [formatBranch, h, h0, h8]

theorem formatBranch_sam {o : List Char}
    (h : endsWithL (stripCompression o) (strL ".sam") = true) :
    formatBranch o = some FormatBranch.samBam := by
  have h0 : endsWithL (stripCompression o) (strL ".m0") = false := by
    rw [endsWithL_of_endsWithL h (by decide)]; decide
  have h8 : endsWithL (stripCompression o) (strL ".m8") = false := by
    rw [endsWithL_of_endsWithL h (by decide)]; decide
  have h9 : endsWithL (stripCompression o) (strL ".m9") = false := by
    rw [endsWithL_of_endsWithL h (by decide)]; decide
  simp [formatBranch, h, h0, h8, h9]

theorem formatBranch_bam {o : List Char}
    (h : endsWithL (stripCompression o) (strL ".bam") = true) :
    formatBranch o = some FormatBranch.samBam := by
  have h0 : endsWithL (stripCompression o) (strL ".m0") = false := by
    rw [endsWithL_of_endsWithL h (by decide)]; decide
  have h8 : endsWithL (stripCompression o) (strL ".m8") = false := by
    rw [endsWithL_of_endsWithL h (by decide)]; decide
  have h9 : endsWithL (stripCompression o) (strL ".m9") = false := by
    rw [endsWithL_of_endsWithL h (by decide)]; decide
  simp [formatBranch, h, h0, h8, h9]

theorem formatBranch_none {o : List Char}
    (h0 : endsWithL (stripCompression o) (strL ".m0") = false)
    (h8 : endsWithL (stripCompression o) (strL ".m8") = false)
    (h9 : endsWithL (stripCompression o) (strL ".m9") = false)
    (hsam : endsWithL (stripCompression o) (strL ".sam") = false)
    (hbam : endsWithL (stripCompression o) (strL ".bam") = false) :
    formatBranch o = none := by
  simp [formatBranch, h0, h8, h9, hsam, hbam]

theorem formatBranch_append_m8 (base : List Char) :
    formatBranch (base ++ strL ".m8") = some FormatBranch.m8 := by
  have hend := endsWithL_append base (strL ".m8")
  have hgz : endsWithL (base ++ strL ".m8") (strL ".gz") = false :=
    endsWithL_ne_of_endsWithL hend rfl (by decide)
  have hbz : endsWithL (base ++ strL ".m8") (strL ".bz2") = false :=
    endsWithL_false_of_shorter hend (by decide) (by decide)
  apply formatBranch_m8
  rw [stripCompression_no_comp hgz hbz]
  exact hend

theorem formatBranch_append_m0 (base : List Char) :
    formatBranch (base ++ strL ".m0") = some FormatBranch.m0 := by
  have hend := endsWithL_append base (strL ".m0")
  have hgz : endsWithL (base ++ strL ".m0") (strL ".gz") = false :=
    endsWithL_ne_of_endsWithL hend rfl (by decide)
  have hbz : endsWithL (base ++ strL ".m0") (strL ".bz2") = false :=
    endsWithL_false_of_shorter hend (by decide) (by decide)
  apply formatBranch_m0
  rw [stripCompression_no_comp hgz hbz]
  exact hend

/-! ## Claim theorems -/

/-- C10: before the output format is selected from the filename suffix, a
trailing `.gz` or `.bz2` compression suffix is stripped from the output
filename, so `<base>.m8.gz` selects the tabular branch and `<base>.m0.bz2`
the pairwise-report branch instead of being rejected; the stripping removes
exactly one compression suffix (a doubled `.gz.gz` keeps its inner `.gz`). -/
theorem c10_compression_suffix_stripping (base : List Char) :
    formatBranch (base ++ strL ".m8.gz") = some FormatBranch.m8 ∧
    formatBranch (base ++ strL ".m0.bz2") = some FormatBranch.m0 ∧
    stripCompression (base ++ strL ".gz") = base ∧
    stripCompression (base ++ strL ".bz2") = base ∧
    stripCompression (base ++ strL ".gz" ++ strL ".gz") = base ++ strL ".gz" := by
  have hcat8 : strL ".m8.gz" = strL ".m8" ++ strL ".gz" := by decide
  have hcat0 : strL ".m0.bz2" = strL ".m0" ++ strL ".bz2" := by decide
  have hm8 : base ++ strL ".m8.gz" = (base ++ strL ".m8") ++ strL ".gz" := by
    rw [hcat8, ← List.append_assoc]
  have hm0 : base ++ strL ".m0.bz2" = (base ++ strL ".m0") ++ strL ".bz2" := by
    rw [hcat0, ← List.append_assoc]
  refine ⟨?_, ?_, stripCompression_gz base, stripCompression_bz2 base,
    stripCompression_gz (base ++ strL ".gz")⟩
  · rw [hm8]
    apply formatBranch_m8
    rw [stripCompression_gz]
    exact endsWithL_append base (strL ".m8")
  · rw [hm0]
    apply formatBranch_m0
    rw [stripCompression_bz2]
    exact endsWithL_append base (strL ".m0")

/-- C1 (amended): the output format is selected from the suffix of the output
filename after one trailing `.gz`/`.bz2` compression suffix has been
stripped: `.m0` selects the pairwise-report branch (`BlastReport`), `.m8` the
tabular branch, `.m9` the tabular-with-comments branch, `.sam`/`.bam` the
accepted alignment branch (dispatched through the tabular-with-comments
instantiation and converted elsewhere); a filename whose stripped form ends
in none of these suffixes is rejected as a hard configuration error — error
message on stderr, result -1 — before any `realMain` phase runs (no index
loading, no search events, no blocks). -/
theorem c1_output_format_selection (o : LambdaOpts) (ph : PhaseOutcomes)
    (blocks : List BlockOutcome) :
    (endsWithL (stripCompression o.output) (strL ".m0") = true →
      formatBranch o.output = some FormatBranch.m0 ∧
      branchFormat FormatBranch.m0 = (OutFormatTag.blastReport, TabSpec.noComments)) ∧
    (endsWithL (stripCompression o.output) (strL ".m8") = true →
      formatBranch o.output = some FormatBranch.m8 ∧
      branchFormat FormatBranch.m8 = (OutFormatTag.blastTabular, TabSpec.noComments)) ∧
    (endsWithL (stripCompression o.output) (strL ".m9") = true →
      formatBranch o.output = some FormatBranch.m9 ∧
      branchFormat FormatBranch.m9 = (OutFormatTag.blastTabular, TabSpec.comments)) ∧
    (endsWithL (stripCompression o.output) (strL ".sam") = true ∨
        endsWithL (stripCompression o.output) (strL ".bam") = true →
      formatBranch o.output = some FormatBranch.samBam ∧
      branchFormat FormatBranch.samBam = (OutFormatTag.blastTabular, TabSpec.comments)) ∧
    (endsWithL (stripCompression o.output) (strL ".m0") = false →
      endsWithL (stripCompression o.output) (strL ".m8") = false →
      endsWithL (stripCompression o.output) (strL ".m9") = false →
      endsWithL (stripCompression o.output) (strL ".sam") = false →
      endsWithL (stripCompression o.output) (strL ".bam") = false →
      formatBranch o.output = none ∧
      runLambda o ph blocks = (-1, [extensionErrMsg], ⟨-1, [], []⟩)) := by
  refine ⟨fun h => ⟨formatBranch_m0 h, rfl⟩, fun h => ⟨formatBranch_m8 h, rfl⟩,
    fun h => ⟨formatBranch_m9 h, rfl⟩, ?_, ?_⟩
  · rintro (h | h)
    · exact ⟨formatBranch_sam h, rfl⟩
    · exact ⟨formatBranch_bam h, rfl⟩
  · intro h0 h8 h9 hsam hbam
    have hn := formatBranch_none h0 h8 h9 hsam hbam
    refine ⟨hn, ?_⟩
    unfold runLambda resolveConfig
    rw [hn]

/-- C1 counterexample: the output filename `out.m8.gz` ends in none of the
five format suffixes, yet the configuration is accepted (tabular branch, no
error) rather than rejected, because the `.gz` suffix is stripped first. -/
theorem c1_counterexample :
    (endsWithL (strL "out.m8.gz") (strL ".m0") = false ∧
     endsWithL (strL "out.m8.gz") (strL ".m8") = false ∧
     endsWithL (strL "out.m8.gz") (strL ".m9") = false ∧
     endsWithL (strL "out.m8.gz") (strL ".sam") = false ∧
     endsWithL (strL "out.m8.gz") (strL ".bam") = false) ∧
    resolveConfig
        { output := strL "out.m8.gz", blastProgram := BlastProg.blastp,
          alphReduction := 0, gapOpen := 11, dbIndexType := DbIndexTy.fmIndex,
          doubleIndexing := true, filterPutativeAbundant := false,
          filterPutativeDuplicates := false, mergePutativeSiblings := false } =
      ([], Except.ok
        { branch := FormatBranch.m8, outFormat := OutFormatTag.blastTabular,
          tabSpec := TabSpec.noComments, program := BlastProg.blastp,
          redAlph := RedAlphTag.aminoAcid, scoreExt := ScoreExtTag.affineGaps,
          indexSpec := IndexSpecTag.fmIndex }) := by
  decide

/-- C1 witness: the format-selection theorem applied at the concrete filename
`x.m9` and at the rejected filename `x.txt`. -/
theorem c1_witness :
    (formatBranch (strL "x.m9") = some FormatBranch.m9 ∧
     branchFormat FormatBranch.m9 = (OutFormatTag.blastTabular, TabSpec.comments)) ∧
    runLambda
        { output := strL "x.txt", blastProgram := BlastProg.blastp,
          alphReduction := 0, gapOpen := 11, dbIndexType := DbIndexTy.fmIndex,
          doubleIndexing := true, filterPutativeAbundant := false,
          filterPutativeDuplicates := false, mergePutativeSiblings := false }
        allPhasesOk [] = (-1, [extensionErrMsg], ⟨-1, [], []⟩) := by
  constructor
  · exact (c1_output_format_selection
      { output := strL "x.m9", blastProgram := BlastProg.blastp,
        alphReduction := 0, gapOpen := 11, dbIndexType := DbIndexTy.fmIndex,
        doubleIndexing := true, filterPutativeAbundant := false,
        filterPutativeDuplicates := false, mergePutativeSiblings := false }
      allPhasesOk []).2.2.1 (by decide)
  · exact ((c1_output_format_selection
      { output := strL "x.txt", blastProgram := BlastProg.blastp,
        alphReduction := 0, gapOpen := 11, dbIndexType := DbIndexTy.fmIndex,
        doubleIndexing := true, filterPutativeAbundant := false,
        filterPutativeDuplicates := false, mergePutativeSiblings := false }
      allPhasesOk []).2.2.2.2 (by decide) (by decide) (by decide) (by decide)
      (by decide)).2

/-- C2 (amended): a failure while processing one query block (seed
generation, trie construction, or match extension returning non-zero) aborts
only the remainder of that block's iteration (`continue`) and the run goes on
with the next block; block failures are never reflected in the run's result:
provided the setup phases succeeded, `realMain` returns 0 regardless of the
block outcomes — even when every block fails — because the per-block result
is loop-local and never copied into `ret`. -/
theorem c2_block_failure_policy (o : LambdaOpts) (blocks : List BlockOutcome)
    (sortOn : Bool) (b : BlockOutcome) :
    (realMainModel o allPhasesOk blocks).exitCode = 0 ∧
    (realMainModel o allPhasesOk blocks).blockTraces =
      blocks.map (blockStages o.doubleIndexing (sortEnabled o)) ∧
    (b.generateSeeds ≠ 0 →
      blockStages true sortOn b = [BStage.initB, BStage.genSeedsB]) ∧
    (b.generateSeeds = 0 → b.generateTrieOverSeeds ≠ 0 →
      blockStages true sortOn b = [BStage.initB, BStage.genSeedsB, BStage.genTrieB]) := by
  refine ⟨?_, ?_, ?_, ?_⟩
  · simp [realMainModel, allPhasesOk]
  · simp [realMainModel, allPhasesOk]
  · intro h1
    simp [blockStages, h1]
  · intro h1 h2
    simp [blockStages, h1, h2]

/-- C2 counterexample: a run whose single (hence: whose every) block fails at
seed generation still returns 0, not a non-zero code as the claim requires. -/
theorem c2_counterexample :
    blockFailed true
      { generateSeeds := 1, generateTrieOverSeeds := 0, iterateMatches := 0,
        hasMatches := true } ∧
    (realMainModel
        { output := strL "out.m8", blastProgram := BlastProg.blastp,
          alphReduction := 0, gapOpen := 11, dbIndexType := DbIndexTy.fmIndex,
          doubleIndexing := true, filterPutativeAbundant := false,
          filterPutativeDuplicates := false, mergePutativeSiblings := false }
        allPhasesOk
        [{ generateSeeds := 1, generateTrieOverSeeds := 0, iterateMatches := 0,
           hasMatches := true }]).exitCode = 0 := by
  constructor
  · show blockRes true _ ≠ 0
    decide
  · decide

/-- C2 witness: the block-failure-policy theorem applied at a concrete run
with one failing and one succeeding block. -/
theorem c2_witness :
    (realMainModel
        { output := strL "out.m8", blastProgram := BlastProg.blastp,
          alphReduction := 0, gapOpen := 11, dbIndexType := DbIndexTy.fmIndex,
          doubleIndexing := true, filterPutativeAbundant := false,
          filterPutativeDuplicates := false, mergePutativeSiblings := false }
        allPhasesOk
        [{ generateSeeds := 1, generateTrieOverSeeds := 0, iterateMatches := 0,
           hasMatches := true },
         { generateSeeds := 0, generateTrieOverSeeds := 0, iterateMatches := 0,
           hasMatches := true }]).exitCode = 0 ∧
    blockStages true false
      { generateSeeds := 1, generateTrieOverSeeds := 0, iterateMatches := 0,
        hasMatches := true } = [BStage.initB, BStage.genSeedsB] := by
  constructor
  · exact (c2_block_failure_policy
      { output := strL "out.m8", blastProgram := BlastProg.blastp,
        alphReduction := 0, gapOpen := 11, dbIndexType := DbIndexTy.fmIndex,
        doubleIndexing := true, filterPutativeAbundant := false,
        filterPutativeDuplicates := false, mergePutativeSiblings := false }
      [{ generateSeeds := 1, generateTrieOverSeeds := 0, iterateMatches := 0,
         hasMatches := true },
       { generateSeeds := 0, generateTrieOverSeeds := 0, iterateMatches := 0,
         hasMatches := true }] false
      { generateSeeds := 1, generateTrieOverSeeds := 0, iterateMatches := 0,
        hasMatches := true }).1
  · exact (c2_block_failure_policy
      { output := strL "out.m8", blastProgram := BlastProg.blastp,
        alphReduction := 0, gapOpen := 11, dbIndexType := DbIndexTy.fmIndex,
        doubleIndexing := true, filterPutativeAbundant := false,
        filterPutativeDuplicates := false, mergePutativeSiblings := false }
      [] false
      { generateSeeds := 1, generateTrieOverSeeds := 0, iterateMatches := 0,
        hasMatches := true }).2.2.1 (by decide)

/-- C3 (amended): in the indexer binary the reduction level is checked for
every program mode — level 0 selects the unreduced alphabet (`Dna5` for
BLASTN, `AminoAcid` otherwise), level 2 selects the Murphy-10 reduced
alphabet, and every other level is rejected with a non-zero (-1) result.  In
the search binary the same holds for BLASTP, BLASTX, TBLASTN and TBLASTX
(with unreduced = `AminoAcid`, rejection printing an error and returning -1),
but BLASTN bypasses the alphabet-reduction dispatch entirely and always runs
with the unreduced `Dna5` alphabet, whatever the configured level. -/
theorem c3_alphabet_reduction_dispatch (p : BlastProg) (r : Nat)
    (io : IndexerOpts) (iph : IndexerPhases) (ts : List (List Nat))
    (code : Nat) (aO aT aR : List Char) (lb g : Nat)
    (o : LambdaOpts) (ph : PhaseOutcomes) (blocks : List BlockOutcome)
    (br : FormatBranch) :
    (indexerRedAlph p 0 =
      Except.ok (if p = BlastProg.blastn then RedAlphTag.dna5 else RedAlphTag.aminoAcid)) ∧
    (indexerRedAlph p 2 = Except.ok RedAlphTag.murphy10) ∧
    (r ≠ 0 → r ≠ 2 → indexerRedAlph p r = Except.error ConfErr.badAlphReduction) ∧
    (io.alphReduction ≠ 0 → io.alphReduction ≠ 2 →
      runIndexer io iph ts code aO aT aR lb g = ⟨-1, [], [], false⟩) ∧
    (p ≠ BlastProg.blastn → lambdaRedAlph p 0 = Except.ok RedAlphTag.aminoAcid) ∧
    (p ≠ BlastProg.blastn → lambdaRedAlph p 2 = Except.ok RedAlphTag.murphy10) ∧
    (p ≠ BlastProg.blastn → r ≠ 0 → r ≠ 2 →
      lambdaRedAlph p r = Except.error ConfErr.badAlphReduction) ∧
    (o.blastProgram ≠ BlastProg.blastn → o.alphReduction ≠ 0 → o.alphReduction ≠ 2 →
      formatBranch o.output = some br →
      runLambda o ph blocks = (-1, [alphReductionErrMsg], ⟨-1, [], []⟩)) ∧
    (lambdaRedAlph BlastProg.blastn r = Except.ok RedAlphTag.dna5) := by
  have hidx : ∀ q : Nat, q ≠ 0 → q ≠ 2 → ∀ pp : BlastProg,
      indexerRedAlph pp q = Except.error ConfErr.badAlphReduction := by
    intro q h0 h2 pp
    unfold indexerRedAlph
    match q, h0, h2 with
    | q + 3, _, _ => rfl
    | 1, _, _ => rfl
  have hlam : ∀ q : Nat, q ≠ 0 → q ≠ 2 → ∀ pp : BlastProg, pp ≠ BlastProg.blastn →
      lambdaRedAlph pp q = Except.error ConfErr.badAlphReduction := by
    intro q h0 h2 pp hpp
    unfold lambdaRedAlph
    match pp, hpp with
    | BlastProg.blastp, _ | BlastProg.blastx, _ | BlastProg.tblastn, _
    | BlastProg.tblastx, _ =>
      match q, h0, h2 with
      | q + 3, _, _ => rfl
      | 1, _, _ => rfl
  refine ⟨?_, ?_, fun h0 h2 => hidx r h0 h2 p, ?_, ?_, ?_,
    fun hp h0 h2 => hlam r h0 h2 p hp, ?_, rfl⟩
  · cases p <;> rfl
  · cases p <;> rfl
  · intro h0 h2
    unfold runIndexer
    rw [hidx io.alphReduction h0 h2 io.blastProgram]
  · intro hp
    cases p <;> first | rfl | exact absurd rfl hp
  · intro hp
    cases p <;> first | rfl | exact absurd rfl hp
  · intro hp h0 h2 hbr
    unfold runLambda resolveConfig
    rw [hbr, hlam o.alphReduction h0 h2 o.blastProgram hp]

/-- C3 counterexample: in the search binary, program mode BLASTN with
reduction level 5 is accepted (it resolves to the unreduced `Dna5` alphabet
and the configuration succeeds) instead of being rejected, and level 2 under
BLASTN selects `Dna5`, not the Murphy-10 alphabet. -/
theorem c3_counterexample :
    lambdaRedAlph BlastProg.blastn 5 = Except.ok RedAlphTag.dna5 ∧
    lambdaRedAlph BlastProg.blastn 2 = Except.ok RedAlphTag.dna5 ∧
    resolveConfig
        { output := strL "out.m8", blastProgram := BlastProg.blastn,
          alphReduction := 5, gapOpen := 11, dbIndexType := DbIndexTy.fmIndex,
          doubleIndexing := true, filterPutativeAbundant := false,
          filterPutativeDuplicates := false, mergePutativeSiblings := false } =
      ([], Except.ok
        { branch := FormatBranch.m8, outFormat := OutFormatTag.blastTabular,
          tabSpec := TabSpec.noComments, program := BlastProg.blastn,
          redAlph := RedAlphTag.dna5, scoreExt := ScoreExtTag.affineGaps,
          indexSpec := IndexSpecTag.fmIndex }) := by
  decide

/-- C3 witness: the dispatch theorem applied at BLASTP with level 5 (both
binaries reject) and at level 2 (Murphy-10 selected). -/
theorem c3_witness :
    indexerRedAlph BlastProg.blastp 5 = Except.error ConfErr.badAlphReduction ∧
    indexerRedAlph BlastProg.blastp 2 = Except.ok RedAlphTag.murphy10 ∧
    lambdaRedAlph BlastProg.blastp 5 = Except.error ConfErr.badAlphReduction ∧
    lambdaRedAlph BlastProg.blastp 2 = Except.ok RedAlphTag.murphy10 ∧
    runIndexer
        { indexDir := strL "idx", dbIndexType := DbIndexTy.fmIndex,
          alphReduction := 5, geneticCode := 1, hasSTaxIds := false,
          blastProgram := BlastProg.blastp } allIndexerPhasesOk [] 1
        (strL "a") (strL "a") (strL "a") 32 0 = ⟨-1, [], [], false⟩ := by
  have h := c3_alphabet_reduction_dispatch BlastProg.blastp 5
    { indexDir := strL "idx", dbIndexType := DbIndexTy.fmIndex,
      alphReduction := 5, geneticCode := 1, hasSTaxIds := false,
      blastProgram := BlastProg.blastp } allIndexerPhasesOk [] 1
    (strL "a") (strL "a") (strL "a") 32 0
    { output := strL "out.m8", blastProgram := BlastProg.blastp,
      alphReduction := 5, gapOpen := 11, dbIndexType := DbIndexTy.fmIndex,
      doubleIndexing := true, filterPutativeAbundant := false,
      filterPutativeDuplicates := false, mergePutativeSiblings := false }
    allPhasesOk [] FormatBranch.m8
  exact ⟨h.2.2.1 (by decide) (by decide), h.2.1,
    h.2.2.2.2.2.2.1 (by decide) (by decide) (by decide),
    h.2.2.2.2.2.1 (by decide),
    h.2.2.2.1 (by decide) (by decide)⟩

/-- C4: when the bidirectional FM-index variant is selected, the indexer
performs exactly two single-direction index builds over the same translated
sequence set, the `Rev()`-tagged (backward, printed as such and passing the
unreversed `translatedSeqs`) one first and the `Fwd()`-tagged (forward) one
second, both with the `TFMIndexInBi` specialisation and the identical
sequence set, so sequence numbering agrees. -/
theorem c4_bidirectional_build_order (dir : List Char) (ar gc : Nat)
    (hasTax : Bool) (p : BlastProg) (ts : List (List Nat)) (code : Nat)
    (aO aT aR : List Char) (lb g : Nat) :
    (realMainIndexer
        { indexDir := dir, dbIndexType := DbIndexTy.biFmIndex, alphReduction := ar,
          geneticCode := gc, hasSTaxIds := hasTax, blastProgram := p }
        allIndexerPhasesOk ts code aO aT aR lb g).builds =
      [{ kind := BuildKind.fmIdxInBi, dir := DirTag.rev, seqs := ts },
       { kind := BuildKind.fmIdxInBi, dir := DirTag.fwd, seqs := ts }] := by
  simp [realMainIndexer, allIndexerPhasesOk]

/-- C5: in the NDEBUG build of either binary, a `std::bad_alloc` thrown by
any phase after successful command-line parsing is caught at top level,
reported with the binary's distinct out-of-memory message (which tells the
user to split the input / search a smaller database), and turned into exit
code 1; the body is invoked exactly once (no retry); any other
`std::exception` is reported with its own `what()` text and also yields exit
code 1; a normal return passes its code through with nothing on stderr. -/
theorem c5_top_level_exception_handling (v : Int) (msg : List Char) :
    mainCatch lambdaOOMMsg BodyOutcome.throwBadAlloc = (1, [lambdaOOMMsg], 1) ∧
    mainCatch indexerOOMMsg BodyOutcome.throwBadAlloc = (1, [indexerOOMMsg], 1) ∧
    mainCatch lambdaOOMMsg (BodyOutcome.throwStdException msg) = (1, [msg], 1) ∧
    mainCatch indexerOOMMsg (BodyOutcome.throwStdException msg) = (1, [msg], 1) ∧
    mainCatch lambdaOOMMsg (BodyOutcome.ret v) = (v, [], 1) ∧
    mainCatch indexerOOMMsg (BodyOutcome.ret v) = (v, [], 1) ∧
    lambdaOOMMsg ≠ indexerOOMMsg :=
  ⟨rfl, rfl, rfl, rfl, rfl, rfl, by decide⟩

/-- C7: a configured additional gap-open cost of zero is accepted, not
rejected — the dispatch chain resolves the configuration and continues
towards extension — and the performance-note warning is printed upstream of
the extension engine; for every non-zero gap-open cost the affine-gap model
is selected and no such warning is printed (in the default build the
affine-gap model is selected in the zero case as well). -/
theorem c7_zero_gap_open (g : Int) (base : List Char) (dbt : DbIndexTy)
    (di f1 f2 f3 : Bool) :
    (g = 0 →
      resolveConfig
          { output := base ++ strL ".m8", blastProgram := BlastProg.blastp,
            alphReduction := 0, gapOpen := g, dbIndexType := dbt,
            doubleIndexing := di, filterPutativeAbundant := f1,
            filterPutativeDuplicates := f2, mergePutativeSiblings := f3 } =
        ([gapOpenAttentionMsg], Except.ok
          { branch := FormatBranch.m8, outFormat := OutFormatTag.blastTabular,
            tabSpec := TabSpec.noComments, program := BlastProg.blastp,
            redAlph := RedAlphTag.aminoAcid, scoreExt := ScoreExtTag.affineGaps,
            indexSpec := indexSpecFor dbt })) ∧
    (g ≠ 0 →
      resolveConfig
          { output := base ++ strL ".m8", blastProgram := BlastProg.blastp,
            alphReduction := 0, gapOpen := g, dbIndexType := dbt,
            doubleIndexing := di, filterPutativeAbundant := f1,
            filterPutativeDuplicates := f2, mergePutativeSiblings := f3 } =
        ([], Except.ok
          { branch := FormatBranch.m8, outFormat := OutFormatTag.blastTabular,
            tabSpec := TabSpec.noComments, program := BlastProg.blastp,
            redAlph := RedAlphTag.aminoAcid, scoreExt := ScoreExtTag.affineGaps,
            indexSpec := indexSpecFor dbt })) := by
  constructor
  · intro hg
    subst hg
    simp [resolveConfig, formatBranch_append_m8, lambdaRedAlph, gapWarnings,
      scoreExtFor, branchFormat]
  · intro hg
    simp [resolveConfig, formatBranch_append_m8, lambdaRedAlph, gapWarnings, hg,
      scoreExtFor, branchFormat]

/-- C7 witness: the gap-open theorem applied at gap-open costs 0 and 11. -/
theorem c7_witness :
    resolveConfig
        { output := strL "q" ++ strL ".m8", blastProgram := BlastProg.blastp,
          alphReduction := 0, gapOpen := 0, dbIndexType := DbIndexTy.fmIndex,
          doubleIndexing := true, filterPutativeAbundant := false,
          filterPutativeDuplicates := false, mergePutativeSiblings := false } =
      ([gapOpenAttentionMsg], Except.ok
        { branch := FormatBranch.m8, outFormat := OutFormatTag.blastTabular,
          tabSpec := TabSpec.noComments, program := BlastProg.blastp,
          redAlph := RedAlphTag.aminoAcid, scoreExt := ScoreExtTag.affineGaps,
          indexSpec := indexSpecFor DbIndexTy.fmIndex }) ∧
    resolveConfig
        { output := strL "q" ++ strL ".m8", blastProgram := BlastProg.blastp,
          alphReduction := 0, gapOpen := 11, dbIndexType := DbIndexTy.fmIndex,
          doubleIndexing := true, filterPutativeAbundant := false,
          filterPutativeDuplicates := false, mergePutativeSiblings := false } =
      ([], Except.ok
        { branch := FormatBranch.m8, outFormat := OutFormatTag.blastTabular,
          tabSpec := TabSpec.noComments, program := BlastProg.blastp,
          redAlph := RedAlphTag.aminoAcid, scoreExt := ScoreExtTag.affineGaps,
          indexSpec := indexSpecFor DbIndexTy.fmIndex }) :=
  ⟨(c7_zero_gap_open 0 (strL "q") DbIndexTy.fmIndex true false false false).1 rfl,
   (c7_zero_gap_open 11 (strL "q") DbIndexTy.fmIndex true false false false).2
     (by decide)⟩

/-- C8: after a successful index build the indexer writes exactly seven
auxiliary metadata entries — db_index_type, alph_original, alph_translated,
alph_reduced, genetic_code, subj_seq_len_bits and generation — each as a
separate `option:<key>` text file in the index directory (the seven paths are
pairwise distinct: one file per key), and then returns 0. -/
theorem c8_metadata_files (dir : List Char) (dbt : DbIndexTy) (ar gc : Nat)
    (hasTax : Bool) (p : BlastProg) (ts : List (List Nat)) (code : Nat)
    (aO aT aR : List Char) (lb g : Nat) :
    (realMainIndexer
        { indexDir := dir, dbIndexType := dbt, alphReduction := ar,
          geneticCode := gc, hasSTaxIds := hasTax, blastProgram := p }
        allIndexerPhasesOk ts code aO aT aR lb g).exitCode = 0 ∧
    (realMainIndexer
        { indexDir := dir, dbIndexType := dbt, alphReduction := ar,
          geneticCode := gc, hasSTaxIds := hasTax, blastProgram := p }
        allIndexerPhasesOk ts code aO aT aR lb g).files.map Prod.fst =
      metadataKeys.map (fun k => dir ++ k) ∧
    (realMainIndexer
        { indexDir := dir, dbIndexType := dbt, alphReduction := ar,
          geneticCode := gc, hasSTaxIds := hasTax, blastProgram := p }
        allIndexerPhasesOk ts code aO aT aR lb g).files.length = 7 ∧
    ((realMainIndexer
        { indexDir := dir, dbIndexType := dbt, alphReduction := ar,
          geneticCode := gc, hasSTaxIds := hasTax, blastProgram := p }
        allIndexerPhasesOk ts code aO aT aR lb g).files.map Prod.fst).Nodup := by
  have hfiles : (realMainIndexer
      { indexDir := dir, dbIndexType := dbt, alphReduction := ar,
        geneticCode := gc, hasSTaxIds := hasTax, blastProgram := p }
      allIndexerPhasesOk ts code aO aT aR lb g).files =
      metadataFiles
        { indexDir := dir, dbIndexType := dbt, alphReduction := ar,
          geneticCode := gc, hasSTaxIds := hasTax, blastProgram := p }
        code aO aT aR lb g := by
    simp [realMainIndexer, allIndexerPhasesOk]
  have hmap : (metadataFiles
      { indexDir := dir, dbIndexType := dbt, alphReduction := ar,
        geneticCode := gc, hasSTaxIds := hasTax, blastProgram := p }
      code aO aT aR lb g).map Prod.fst = metadataKeys.map (fun k => dir ++ k) := by
    simp [metadataFiles, metadataKeys]
  refine ⟨by simp [realMainIndexer, allIndexerPhasesOk], ?_, ?_, ?_⟩
  · rw [hfiles, hmap]
  · rw [hfiles]; rfl
  · rw [hfiles, hmap]
    have hinj : Function.Injective (fun k : List Char => dir ++ k) :=
      fun a b h => List.append_cancel_left h
    have hkeys : metadataKeys.Nodup := by decide
    exact hkeys.map hinj

/-- C6: when double-indexing is disabled, the seed-generation and
trie-construction stages are skipped in every block iteration (the block goes
straight from init to the search); when it is enabled, both stages run before
the search (in order: seeds, trie, search); and on the same subject set,
query set and seeds the two search modes produce the same set of matches —
membership in the co-traversal output coincides with membership in the
per-seed direct-lookup output. -/
theorem c6_double_indexing_equivalence (sortOn : Bool) (b : BlockOutcome)
    (subj qrys : SeqSet) (seeds : List Seed) (m : MatchRec) :
    (blockStages false sortOn b = BStage.initB :: restStages sortOn b ∧
      BStage.genSeedsB ∉ blockStages false sortOn b ∧
      BStage.genTrieB ∉ blockStages false sortOn b) ∧
    (b.generateSeeds = 0 → b.generateTrieOverSeeds = 0 →
      blockStages true sortOn b =
        [BStage.initB, BStage.genSeedsB, BStage.genTrieB] ++ restStages sortOn b) ∧
    (m ∈ doubleIndexSearch subj qrys seeds ↔ m ∈ directSearch subj qrys seeds) := by
  refine ⟨?_, ?_, doubleIndexSearch_eq_directSearch subj qrys seeds m⟩
  · refine ⟨by simp [blockStages], ?_, ?_⟩
    · cases sortOn <;> rcases b with ⟨g, t, i, hm⟩ <;> cases hm <;>
        simp [blockStages, restStages]
    · cases sortOn <;> rcases b with ⟨g, t, i, hm⟩ <;> cases hm <;>
        simp [blockStages, restStages]
  · intro h1 h2
    simp [blockStages, h1, h2]

/-- C6 witness: the equivalence theorem applied at a concrete block outcome,
a concrete subject/query pair and a concrete match. -/
theorem c6_witness :
    blockStages true true
      { generateSeeds := 0, generateTrieOverSeeds := 0, iterateMatches := 0,
        hasMatches := true } =
      [BStage.initB, BStage.genSeedsB, BStage.genTrieB] ++
        restStages true
          { generateSeeds := 0, generateTrieOverSeeds := 0, iterateMatches := 0,
            hasMatches := true } ∧
    (({ qId := 0, sId := 0, qStart := 0, sStart := 1, len := 2, diag := 1 } :
        MatchRec) ∈ doubleIndexSearch [[1, 2, 3, 4]] [[2, 3]] [⟨0, 0, 2⟩] ↔
      ({ qId := 0, sId := 0, qStart := 0, sStart := 1, len := 2, diag := 1 } :
        MatchRec) ∈ directSearch [[1, 2, 3, 4]] [[2, 3]] [⟨0, 0, 2⟩]) :=
  ⟨(c6_double_indexing_equivalence true
      { generateSeeds := 0, generateTrieOverSeeds := 0, iterateMatches := 0,
        hasMatches := true } [[1, 2, 3, 4]] [[2, 3]] [⟨0, 0, 2⟩]
      { qId := 0, sId := 0, qStart := 0, sStart := 1, len := 2, diag := 1 }).2.1
      rfl rfl,
   (c6_double_indexing_equivalence true
      { generateSeeds := 0, generateTrieOverSeeds := 0, iterateMatches := 0,
        hasMatches := true } [[1, 2, 3, 4]] [[2, 3]] [⟨0, 0, 2⟩]
      { qId := 0, sId := 0, qStart := 0, sStart := 1, len := 2, diag := 1 }).2.2⟩
